import Mathlib

/-
Shallow embedding of homeassistant/components/mysensors.py
(MySerialGateway codec and read loop, MySensorController dispatch and
registry operations).  Python strings are modelled as List Char, Python
ints as Int, dynamically typed namedtuple payload slots as the sum type
Payload, and raised exceptions as Except PyError results.
-/

/-! ## Python string and int primitives used by the codec -/

/-- Whitespace characters stripped by str.rstrip() (ASCII fragment, which
covers every character this wire protocol can carry). -/
def isPySpace (c : Char) : Bool :=
  c == ' ' || c == '\t' || c == '\n' || c == '\r' ||
    c == '\x0b' || c == '\x0c'

/-- Model of str.rstrip(). -/
def pyRstrip (l : List Char) : List Char :=
  (l.reverse.dropWhile isPySpace).reverse

/-- Model of str.strip(), used by int() which ignores surrounding
whitespace. -/
def pyStrip (l : List Char) : List Char :=
  pyRstrip (l.dropWhile isPySpace)

/-- Decimal digit character for a value below ten (values ten and above
never occur; the catch-all keeps the function total). -/
def digitChar (d : Nat) : Char :=
  if d = 0 then '0' else if d = 1 then '1' else if d = 2 then '2'
  else if d = 3 then '3' else if d = 4 then '4' else if d = 5 then '5'
  else if d = 6 then '6' else if d = 7 then '7' else if d = 8 then '8'
  else '9'

/-- Numeric value of a decimal digit character, none for anything else. -/
def charDigit (c : Char) : Option Nat :=
  if 48 ≤ c.toNat ∧ c.toNat ≤ 57 then some (c.toNat - 48) else none

/-- Decimal rendering of a Nat, fuel-structured so that it reduces by
kernel computation; fuel n+1 always suffices. -/
def natDigitsAux : Nat → Nat → List Char
  | 0, _ => []
  | fuel + 1, n =>
    if n < 10 then [digitChar n]
    else natDigitsAux fuel (n / 10) ++ [digitChar (n % 10)]

/-- Decimal rendering of a Nat, as produced by Python str(). -/
def natDigits (n : Nat) : List Char := natDigitsAux (n + 1) n

/-- Model of Python str() on an int. -/
def intStr (k : Int) : List Char :=
  if k < 0 then '-' :: natDigits (-k).toNat else natDigits k.toNat

/-- Accumulating decimal parser; none as soon as a non-digit appears. -/
def parseDigitsAux (acc : Nat) : List Char → Option Nat
  | [] => some acc
  | c :: r =>
    match charDigit c with
    | some d => parseDigitsAux (acc * 10 + d) r
    | none => none

/-- Nonempty run of decimal digits, else none. -/
def parseDigits1 (l : List Char) : Option Nat :=
  if l.isEmpty then none else parseDigitsAux 0 l

/-- Model of Python int(str): surrounding whitespace is ignored, an
optional sign precedes a nonempty digit run; anything else raises
ValueError, modelled as none.  (Digit-group underscores, accepted by
Python, are not modelled; no claim exercises them.) -/
def pyParseInt (s : List Char) : Option Int :=
  match pyStrip s with
  | [] => none
  | c :: r =>
    if c = '-' then (parseDigits1 r).map (fun n => -(n : Int))
    else if c = '+' then (parseDigits1 r).map (fun n => (n : Int))
    else (parseDigits1 (c :: r)).map (fun n => (n : Int))

/-- Model of Python str.split with separator ";": fields may be empty,
the result is never the empty list. -/
def splitSemi : List Char → List (List Char)
  | [] => [[]]
  | c :: rest =>
    if c = ';' then [] :: splitSemi rest
    else
      match splitSemi rest with
      | [] => [[c]]
      | f :: fs => (c :: f) :: fs

/-- Model of the Python str ";".join. -/
def joinSemi : List (List Char) → List Char
  | [] => []
  | [f] => f
  | f :: fs => f ++ ';' :: joinSemi fs

/-! ## Messages -/

/-- A value held in a namedtuple slot: Python is dynamically typed, and
the payload slot holds a str for decoded messages but an int for the
ID_RESPONSE reply built in handle_id_request. -/
inductive Payload where
  | s (chars : List Char)
  | i (val : Int)
deriving DecidableEq

/-- MyMessage namedtuple of mysensors.py. -/
structure MyMessage where
  node_id : Int
  child_id : Int
  message_type : Int
  ack : Int
  sub_type : Int
  payload : Payload
deriving DecidableEq

/-- Python exceptions that the modelled code can raise. -/
inductive PyError where
  | valueError
  | typeError
  | attributeError
deriving DecidableEq

/-- Python str() of a namedtuple field, as used by MySerialGateway.write. -/
def pyStrOfPayload : Payload → List Char
  | .s cs => cs
  | .i k => intStr k

/-- The six namedtuple fields of a message in wire order. -/
def msgFields (m : MyMessage) : List (List Char) :=
  [intStr m.node_id, intStr m.child_id, intStr m.message_type,
   intStr m.ack, intStr m.sub_type, pyStrOfPayload m.payload]

/-- MySerialGateway.write serialization:
out = ";".join([str(f) for f in msg]) + "\n". -/
def encodeMsg (m : MyMessage) : List Char :=
  joinSemi (msgFields m) ++ ['\n']

/-- The parsing part of MySerialGateway._handle_line:
fields = line.split(";")
fields = [int(f) for f in fields[:-1]] + [fields[-1].rstrip()]
msg = MyMessage(*fields)
int() raising is a ValueError; MyMessage(*fields) with an argument count
other than six is a TypeError.  Neither is caught in _handle_line. -/
def intListOf : List (List Char) → Option (List Int)
  | [] => some []
  | f :: fs =>
    match pyParseInt f with
    | none => none
    | some v =>
      match intListOf fs with
      | none => none
      | some vs => some (v :: vs)

/-- fields[:-1] -/
def frontFields : List (List Char) → List (List Char)
  | [] => []
  | [_] => []
  | f :: fs => f :: frontFields fs

/-- fields[-1]; none only on the empty list, which str.split never
returns. -/
def lastField : List (List Char) → Option (List Char)
  | [] => none
  | [f] => some f
  | _ :: fs => lastField fs

def parseLine (line : List Char) : Except PyError MyMessage :=
  let fields := splitSemi line
  match intListOf (frontFields fields) with
  | none => .error .valueError
  | some ints =>
    match ints, lastField fields with
    | [a, b, c, d, e], some last =>
      .ok { node_id := a, child_id := b, message_type := c, ack := d,
            sub_type := e, payload := .s (pyRstrip last) }
    | _, _ => .error .typeError

example : parseLine ("1;2;0;0;6;a \n".data) =
    .ok { node_id := 1, child_id := 2, message_type := 0, ack := 0,
          sub_type := 6, payload := .s ['a'] } := rfl

example : encodeMsg { node_id := 1, child_id := 2, message_type := 0,
                      ack := 0, sub_type := 6, payload := .s ['a', ' '] } =
    "1;2;0;0;6;a \n".data := rfl

example : parseLine ("1;2\n".data) = .error .typeError := rfl

example : parseLine ("a;0;0;0;0;x\n".data) = .error .valueError := rfl

/-! ## Gateway dispatch (_handle_line) and read loop (run) -/

/-- Event channels fired by _handle_line. -/
inductive EventKind where
  | presentation
  | set
  | req
  | internal
deriving DecidableEq

/-- Observable result of a _handle_line call that did not raise. -/
inductive HandleResult where
  | fired (ev : EventKind) (msg : MyMessage)
  | droppedUnknownType (t : Int)
  | droppedUnsupported (msg : MyMessage)
deriving DecidableEq

/-- MySerialGateway._handle_line: parse, then
try: mtype = MyMessageType(msg.message_type) except ValueError: log, return;
then fire the event for presentation/set/req/internal, or warn for stream.
Values 0..4 are the MyMessageType members; any other value raises
ValueError inside the try and is logged and dropped. -/
def handleLine (line : List Char) : Except PyError HandleResult :=
  match parseLine line with
  | .error e => .error e
  | .ok msg =>
    if msg.message_type = 0 then .ok (.fired .presentation msg)
    else if msg.message_type = 1 then .ok (.fired .set msg)
    else if msg.message_type = 2 then .ok (.fired .req msg)
    else if msg.message_type = 3 then .ok (.fired .internal msg)
    else if msg.message_type = 4 then .ok (.droppedUnsupported msg)
    else .ok (.droppedUnknownType msg.message_type)

/-- Outcome of one connected iteration of MySerialGateway.run after
readline returned.  The try/except in run covers only conn.readline();
the call self._handle_line(line.decode()) is outside it, so an exception
raised there escapes run and kills the thread. -/
inductive RunOutcome where
  | iterate
  | crashed (e : PyError)
deriving DecidableEq

def runStep (line : List Char) : RunOutcome :=
  if line.isEmpty then .iterate
  else
    match handleLine line with
    | .ok _ => .iterate
    | .error e => .crashed e

/-- Python None, the return value of threading.Event.set(). -/
inductive PyNone where
  | none
deriving DecidableEq

/-- Python truthiness of None. -/
def pyTruthy : PyNone → Bool := fun _ => false

/-- threading.Event.set(): sets the internal flag and returns None. -/
def eventSet (_flag : Bool) : Bool × PyNone := (true, PyNone.none)

/-- Decision taken by the while header of MySerialGateway.run. -/
inductive LoopDecision where
  | iterate
  | exitAndClose
deriving DecidableEq

/-- The loop header `while not self._stop_event.set():` of run, as
written in the source: it evaluates self._stop_event.set() (not
is_set()), then applies Python `not` to the result, and iterates while
that is true.  Input: the stop-event flag before the check; output: the
flag after the check and the decision. -/
def runLoopCheck (stopFlag : Bool) : Bool × LoopDecision :=
  let r := eventSet stopFlag
  (r.1, if !pyTruthy r.2 then .iterate else .exitAndClose)

example : runLoopCheck true = (true, .iterate) := rfl
example : runLoopCheck false = (true, .iterate) := rfl

/-! ## Controller registry model (mysensors.yaml contents) -/

/-- One sensor dict: keys "id", "version", "type"; the latter two are
absent until the first presentation message writes them. -/
structure Sensor where
  id : Int
  version : Option Payload := none
  type : Option Int := none
deriving DecidableEq

/-- One node dict: keys "id", "name", "version", "sensors"; all but "id"
may be absent. -/
structure Node where
  id : Int
  name : Option Payload := none
  version : Option Payload := none
  sensors : Option (List Sensor) := none
deriving DecidableEq

/-- The controller config dict: key "nodes" may be absent (a fresh or
missing mysensors.yaml yields an empty dict). -/
structure Config where
  nodes : Option (List Node)
deriving DecidableEq

/-- Side effects a controller handler performs besides mutating the
config: gateway.write calls, EVENT_PLATFORM_DISCOVERED firings, and
save_config invocations, each in call order / count. -/
structure CtrlEffects where
  writes : List MyMessage := []
  discoveries : List Node := []
  saves : Nat := 0
deriving DecidableEq

/-- Internal sub-type constants used by handle_internal. -/
def I_ID_REQUEST : Int := 3
def I_ID_RESPONSE : Int := 4
def I_CONFIG : Int := 6
def I_LOG_MESSAGE : Int := 9
def I_SKETCH_NAME : Int := 11
def I_SKETCH_VERSION : Int := 12
def I_GATEWAY_READY : Int := 14

/-- The for-loop body of MySensorController._get_node: first node whose
"id" equals nodeid, else None. -/
def findNode (nid : Int) : List Node → Option Node
  | [] => none
  | n :: rest => if n.id = nid then some n else findNode nid rest

/-- MySensorController._get_node: nodes = self.config.get("nodes"); a
missing "nodes" key makes the for-loop iterate None, raising TypeError;
otherwise return the first matching node dict or None. -/
def _get_node (cfg : Config) (nodeid : Int) : Except PyError (Option Node) :=
  match cfg.nodes with
  | none => .error .typeError
  | some ns => .ok (findNode nodeid ns)

/-- In-place mutation of the first node dict whose "id" equals nid,
returning the new list together with the mutated dict (Python aliases
it); none when no node matches. -/
def updateNodeList (nid : Int) (f : Node → Node) :
    List Node → Option (List Node × Node)
  | [] => none
  | n :: rest =>
    if n.id = nid then some (f n :: rest, f n)
    else
      match updateNodeList nid f rest with
      | none => none
      | some (rest', n') => some (n :: rest', n')

/-- MySensorController._get_sensor fused with the two assignments that
handle_presentation performs on the returned sensor dict: the first
sensor whose "id" equals msg.child_id has its "version" and "type" keys
set; if none matches, a fresh dict {id, version, type} is appended. -/
def presentSensor (msg : MyMessage) : List Sensor → List Sensor
  | [] => [{ id := msg.child_id, version := some msg.payload,
             type := some msg.sub_type }]
  | s :: rest =>
    if s.id = msg.child_id then
      { s with version := some msg.payload, type := some msg.sub_type } :: rest
    else s :: presentSensor msg rest

/-- The node mutation performed by handle_presentation: _get_sensor
first materializes an empty "sensors" list when the key is absent or
falsy, then the sensor is updated or appended. -/
def presentUpd (msg : MyMessage) (node : Node) : Node :=
  { node with sensors := some (presentSensor msg (node.sensors.getD [])) }

/-- MySensorController.handle_presentation: node = _get_node(node_id)
(TypeError when the "nodes" key is absent); with node = None the call
node.get("sensors") raises AttributeError; otherwise the sensor is
updated in place, save_config() runs once, and one
EVENT_PLATFORM_DISCOVERED is fired carrying the mutated node dict. -/
def handle_presentation (cfg : Config) (msg : MyMessage) :
    Except PyError (Config × CtrlEffects) :=
  match cfg.nodes with
  | none => .error .typeError
  | some ns =>
    match updateNodeList msg.node_id (presentUpd msg) ns with
    | none => .error .attributeError
    | some (ns', node') =>
      .ok (⟨some ns'⟩, { discoveries := [node'], saves := 1 })

/-- max(nodes, key=lambda n: n["id"]): Python max keeps the current
element unless a strictly greater key appears. -/
def maxNodeByKey (n : Node) (ns : List Node) : Node :=
  ns.foldl (fun acc x => if acc.id < x.id then x else acc) n

/-- MySensorController.next_sensor_id: 1 when the "nodes" key is absent
or the list is empty (both falsy), else max id + 1. -/
def next_sensor_id (cfg : Config) : Int :=
  match cfg.nodes with
  | none => 1
  | some [] => 1
  | some (n :: ns) => (maxNodeByKey n ns).id + 1

/-- The statement `if not self.config.get("nodes"):
self.config["nodes"] = []` at the top of handle_id_request. -/
def ensureNodes (cfg : Config) : Config :=
  match cfg.nodes with
  | none => ⟨some []⟩
  | some [] => ⟨some []⟩
  | some _ => cfg

/-- MySensorController.handle_id_request: allocate next_sensor_id, write
one reply with ack=0, sub_type=int(I_ID_RESPONSE)=4 and the new id as
payload (a Python int), append {"id": next_id} to the nodes list, and
save_config().  It never raises. -/
def handle_id_request (cfg : Config) (msg : MyMessage) :
    Config × CtrlEffects :=
  let cfg1 := ensureNodes cfg
  let next_id := next_sensor_id cfg1
  let response : MyMessage :=
    { msg with ack := 0, sub_type := I_ID_RESPONSE, payload := .i next_id }
  (⟨some (cfg1.nodes.getD [] ++ [{ id := next_id }])⟩,
   { writes := [response], saves := 1 })

/-- MySensorController.handle_internal, dispatching on msg.sub_type.
metric models self.hass.config.temperature_unit == TEMP_CELCIUS.  The
sketch-name and sketch-version branches assign node["name"] /
node["version"]; with node = None the item assignment raises TypeError;
neither branch calls save_config.  LOG_MESSAGE, GATEWAY_READY and the
final else only log. -/
def handle_internal (metric : Bool) (cfg : Config) (msg : MyMessage) :
    Except PyError (Config × CtrlEffects) :=
  if msg.sub_type = I_ID_REQUEST then .ok (handle_id_request cfg msg)
  else if msg.sub_type = I_CONFIG then
    .ok (cfg, { writes := [{ msg with
                  payload := .s (if metric then ['M'] else ['I']) }] })
  else if msg.sub_type = I_LOG_MESSAGE then .ok (cfg, {})
  else if msg.sub_type = I_SKETCH_NAME then
    match cfg.nodes with
    | none => .error .typeError
    | some ns =>
      match updateNodeList msg.node_id
          (fun n => { n with name := some msg.payload }) ns with
      | none => .error .typeError
      | some (ns', _) => .ok (⟨some ns'⟩, {})
  else if msg.sub_type = I_SKETCH_VERSION then
    match cfg.nodes with
    | none => .error .typeError
    | some ns =>
      match updateNodeList msg.node_id
          (fun n => { n with version := some msg.payload }) ns with
      | none => .error .typeError
      | some (ns', _) => .ok (⟨some ns'⟩, {})
  else if msg.sub_type = I_GATEWAY_READY then .ok (cfg, {})
  else .ok (cfg, {})

/-- Registry invariant claimed by the spec: node ids unique, sensor ids
unique within each node. -/
def RegInv (cfg : Config) : Prop :=
  ((cfg.nodes.getD []).map Node.id).Nodup ∧
    ∀ n ∈ cfg.nodes.getD [], (((n.sensors.getD []).map Sensor.id)).Nodup

instance (cfg : Config) : Decidable (RegInv cfg) := by
  unfold RegInv; infer_instance

/-- Sequential id allocation starting from an empty registry, used to
state the id-allocation property. -/
def idReqMsg : MyMessage :=
  { node_id := 255, child_id := 255, message_type := 3, ack := 0,
    sub_type := 3, payload := .s [] }

def allocStep (cfg : Config) : Config :=
  (handle_id_request cfg idReqMsg).1

def allocN : Nat → Config
  | 0 => ⟨none⟩
  | n + 1 => allocStep (allocN n)

example : next_sensor_id ⟨some [{ id := 1 }, { id := 3 }, { id := 5 }]⟩ = 6 := rfl
example : (allocN 3).nodes = some [{ id := 1 }, { id := 2 }, { id := 3 }] := rfl
example : handle_presentation ⟨some []⟩
    { node_id := 5, child_id := 2, message_type := 0, ack := 0,
      sub_type := 6, payload := .s ['1', '.', '5'] } = .error .attributeError := rfl

/-! ## Decimal rendering and parsing lemmas -/

theorem digitChar_toNat (d : Nat) :
    48 ≤ (digitChar d).toNat ∧ (digitChar d).toNat ≤ 57 := by
  unfold digitChar
  split_ifs <;> decide

theorem digitChar_charDigit (d : Nat) (h : d < 10) :
    charDigit (digitChar d) = some d := by
  interval_cases d <;> rfl

theorem natDigitsAux_fuel (f1 f2 n : Nat) (h1 : n < f1) (h2 : n < f2) :
    natDigitsAux f1 n = natDigitsAux f2 n := by
  induction f1 generalizing f2 n with
  | zero => omega
  | succ f ih =>
    cases f2 with
    | zero => omega
    | succ g =>
      simp only [natDigitsAux]
      by_cases h10 : n < 10
      · simp [h10]
      · simp only [h10, if_false]
        rw [ih g (n / 10) (by omega) (by omega)]

theorem natDigits_cons_big (n : Nat) (h : ¬ n < 10) :
    natDigits n = natDigits (n / 10) ++ [digitChar (n % 10)] := by
  have step : natDigitsAux (n + 1) n =
      natDigitsAux n (n / 10) ++ [digitChar (n % 10)] := by
    simp [natDigitsAux, h]
  show natDigitsAux (n + 1) n = _
  rw [step, natDigitsAux_fuel n (n / 10 + 1) (n / 10) (by omega) (by omega)]
  rfl

theorem natDigits_small (n : Nat) (h : n < 10) :
    natDigits n = [digitChar n] := by
  show natDigitsAux (n + 1) n = _
  simp [natDigitsAux, h]

theorem natDigits_ne_nil (n : Nat) : natDigits n ≠ [] := by
  by_cases h : n < 10
  · rw [natDigits_small n h]; simp
  · rw [natDigits_cons_big n h]; simp

theorem toNat_bounds_of_mem_natDigits (n : Nat) :
    ∀ c ∈ natDigits n, 48 ≤ c.toNat ∧ c.toNat ≤ 57 := by
  induction n using Nat.strong_induction_on with
  | _ n ih =>
    intro c hc
    by_cases h : n < 10
    · rw [natDigits_small n h] at hc
      simp at hc
      subst hc
      exact digitChar_toNat n
    · rw [natDigits_cons_big n h] at hc
      rcases List.mem_append.mp hc with h1 | h1
      · exact ih (n / 10) (by omega) c h1
      · simp at h1
        subst h1
        exact digitChar_toNat _

theorem parseDigitsAux_append (acc : Nat) (l1 l2 : List Char) :
    parseDigitsAux acc (l1 ++ l2) =
      match parseDigitsAux acc l1 with
      | none => none
      | some a => parseDigitsAux a l2 := by
  induction l1 generalizing acc with
  | nil => simp [parseDigitsAux]
  | cons c r ih =>
    simp only [List.cons_append, parseDigitsAux]
    cases charDigit c with
    | none => simp
    | some d => simp [ih]

theorem parse_natDigits (n : Nat) :
    parseDigitsAux 0 (natDigits n) = some n := by
  induction n using Nat.strong_induction_on with
  | _ n ih =>
    by_cases h : n < 10
    · rw [natDigits_small n h]
      simp [parseDigitsAux, digitChar_charDigit n h]
    · rw [natDigits_cons_big n h, parseDigitsAux_append,
          ih (n / 10) (by omega)]
      simp [parseDigitsAux, digitChar_charDigit (n % 10) (by omega)]
      omega

/-! ## Whitespace and int() round-trip lemmas -/

theorem isPySpace_eq_false {c : Char} (h : 33 ≤ c.toNat) :
    isPySpace c = false := by
  simp only [isPySpace, Bool.or_eq_false_iff, beq_eq_false_iff_ne]
  refine ⟨⟨⟨⟨⟨?_, ?_⟩, ?_⟩, ?_⟩, ?_⟩, ?_⟩ <;>
    (rintro rfl; exact absurd h (by decide))

theorem dropWhile_eq_self_of {p : Char → Bool} {l : List Char}
    (h : ∀ c ∈ l, p c = false) : l.dropWhile p = l := by
  cases l with
  | nil => rfl
  | cons c r => simp [List.dropWhile, h c (by simp)]

theorem pyStrip_eq_self {l : List Char} (h : ∀ c ∈ l, 33 ≤ c.toNat) :
    pyStrip l = l := by
  have h1 : l.dropWhile isPySpace = l :=
    dropWhile_eq_self_of (fun c hc => isPySpace_eq_false (h c hc))
  have h2 : l.reverse.dropWhile isPySpace = l.reverse :=
    dropWhile_eq_self_of
      (fun c hc => isPySpace_eq_false (h c (List.mem_reverse.mp hc)))
  simp [pyStrip, pyRstrip, h1, h2]

theorem pyRstrip_append_ws {c : Char} (hc : isPySpace c = true)
    (l : List Char) : pyRstrip (l ++ [c]) = pyRstrip l := by
  simp [pyRstrip, List.reverse_append, List.dropWhile, hc]

theorem parseDigits1_natDigits (n : Nat) :
    parseDigits1 (natDigits n) = some n := by
  have hne := natDigits_ne_nil n
  rw [parseDigits1]
  cases hl : natDigits n with
  | nil => exact absurd hl hne
  | cons c r =>
    rw [← hl, parse_natDigits n]
    simp [hl]

theorem pyParseInt_intStr (k : Int) : pyParseInt (intStr k) = some k := by
  by_cases hk : k < 0
  · have hi : intStr k = '-' :: natDigits (-k).toNat := by
      simp [intStr, hk]
    have hmem : ∀ c ∈ '-' :: natDigits (-k).toNat, 33 ≤ c.toNat := by
      intro c hc
      rcases List.mem_cons.mp hc with h1 | h1
      · subst h1; decide
      · exact le_trans (by omega) (toNat_bounds_of_mem_natDigits _ c h1).1
    rw [pyParseInt, hi, pyStrip_eq_self hmem]
    have hco : ((-k).toNat : Int) = -k := Int.toNat_of_nonneg (by omega)
    simp [parseDigits1_natDigits, hco]
  · have hi : intStr k = natDigits k.toNat := by
      simp [intStr, hk]
    have hmem : ∀ c ∈ natDigits k.toNat, 33 ≤ c.toNat := by
      intro c hc
      exact le_trans (by omega) (toNat_bounds_of_mem_natDigits _ c hc).1
    rw [pyParseInt, hi, pyStrip_eq_self hmem]
    cases hl : natDigits k.toNat with
    | nil => exact absurd hl (natDigits_ne_nil _)
    | cons c r =>
      have hcb := toNat_bounds_of_mem_natDigits k.toNat c (by rw [hl]; simp)
      have hc1 : ¬ c = '-' := by
        rintro rfl; exact absurd hcb.1 (by decide)
      have hc2 : ¬ c = '+' := by
        rintro rfl; exact absurd hcb.1 (by decide)
      have hco : (k.toNat : Int) = k := Int.toNat_of_nonneg (by omega)
      simp only [hc1, hc2, if_false]
      rw [← hl, parseDigits1_natDigits]
      simp [hco]

theorem semi_not_mem_natDigits (n : Nat) : ';' ∉ natDigits n := by
  intro h
  have hb := toNat_bounds_of_mem_natDigits n ';' h
  exact absurd hb.2 (by decide)

theorem semi_not_mem_intStr (k : Int) : ';' ∉ intStr k := by
  intro h
  by_cases hk : k < 0
  · rw [intStr, if_pos hk] at h
    rcases List.mem_cons.mp h with h1 | h1
    · exact absurd h1 (by decide)
    · exact semi_not_mem_natDigits _ h1
  · rw [intStr, if_neg hk] at h
    exact semi_not_mem_natDigits _ h

/-! ## split lemmas -/

theorem splitSemi_no_sep {a : List Char} (h : ';' ∉ a) :
    splitSemi a = [a] := by
  induction a with
  | nil => rfl
  | cons c r ih =>
    have hc : ¬ c = ';' := by
      rintro rfl
      exact h (by simp)
    have hr : ';' ∉ r := fun hm => h (by simp [hm])
    simp only [splitSemi, hc, if_false, ih hr]

theorem splitSemi_sep {a : List Char} (h : ';' ∉ a) (l : List Char) :
    splitSemi (a ++ ';' :: l) = a :: splitSemi l := by
  induction a with
  | nil => simp [splitSemi]
  | cons c r ih =>
    have hc : ¬ c = ';' := by
      rintro rfl
      exact h (by simp)
    have hr : ';' ∉ r := fun hm => h (by simp [hm])
    show splitSemi (c :: (r ++ ';' :: l)) = (c :: r) :: splitSemi l
    simp only [splitSemi, hc, if_false]
    rw [ih hr]

/-! ## Claim C5: encode/decode round trip -/

/-- Claim C5 counterexample: the claim quantifies over every valid
Message (six fields, integer first five, delimiter-free payload), but a
payload ending in whitespace does not survive decode, because
_handle_line calls rstrip() on the payload field: the message with
payload "a " decodes back with payload "a". -/
theorem c5_counterexample :
    parseLine (encodeMsg { node_id := 1, child_id := 2, message_type := 0,
                           ack := 0, sub_type := 6, payload := .s ['a', ' '] }) =
      .ok { node_id := 1, child_id := 2, message_type := 0,
            ack := 0, sub_type := 6, payload := .s ['a'] } ∧
    Payload.s ['a'] ≠ Payload.s ['a', ' '] :=
  ⟨rfl, by decide⟩

/-- Claim C5 amended: for every message whose five integer fields are
Python ints and whose payload is a string that contains no semicolon and
ends in no whitespace character, decoding the encoded line returns the
message unchanged.  (The trailing-whitespace condition is forced by the
rstrip() in _handle_line; the claim as frozen omits it.) -/
theorem c5_roundtrip_amended (a b c d e : Int) (p : List Char)
    (h1 : ';' ∉ p) (h2 : pyRstrip p = p) :
    parseLine (encodeMsg { node_id := a, child_id := b, message_type := c,
                           ack := d, sub_type := e, payload := .s p }) =
      .ok { node_id := a, child_id := b, message_type := c,
            ack := d, sub_type := e, payload := .s p } := by
  have hp : ';' ∉ p ++ ['\n'] := by
    intro hm
    rcases List.mem_append.mp hm with hm | hm
    · exact h1 hm
    · simp at hm
  have hsplit : splitSemi (encodeMsg ⟨a, b, c, d, e, .s p⟩) =
      [intStr a, intStr b, intStr c, intStr d, intStr e, p ++ ['\n']] := by
    show splitSemi (joinSemi [intStr a, intStr b, intStr c, intStr d,
      intStr e, p] ++ ['\n']) = _
    simp only [joinSemi, List.append_assoc, List.cons_append]
    rw [splitSemi_sep (semi_not_mem_intStr a),
        splitSemi_sep (semi_not_mem_intStr b),
        splitSemi_sep (semi_not_mem_intStr c),
        splitSemi_sep (semi_not_mem_intStr d),
        splitSemi_sep (semi_not_mem_intStr e),
        splitSemi_no_sep hp]
  rw [parseLine]
  simp only [hsplit, frontFields, lastField, intListOf, pyParseInt_intStr,
    pyRstrip_append_ws (by decide : isPySpace '\n' = true) p, h2]

/-! ## Claim C1: malformed lines versus the read loop -/

/-- Claim C1 (code bug in the source): a line with fewer than six fields
raises TypeError from MyMessage(*fields), a non-numeric integer field
raises ValueError from int(), both outside any try in _handle_line, so
they escape run() and stop the read-loop thread instead of being logged
and dropped; and a subType that is no member of the sub-type enumeration
for its class (99 is no Internal member) is not rejected as a decode
failure but dispatched as a normal internal event. -/
theorem c1_malformed_line_crashes_loop :
    runStep ("1;2\n".data) = .crashed .typeError ∧
    runStep ("a;0;0;0;0;x\n".data) = .crashed .valueError ∧
    handleLine ("0;0;3;0;99;x\n".data) =
      .ok (.fired .internal ⟨0, 0, 3, 0, 99, .s ['x']⟩) :=
  ⟨rfl, rfl, rfl⟩

/-! ## Claim C4: stop signal versus the read loop -/

/-- Claim C4 (code bug in the source): the while header of run calls
self._stop_event.set() instead of is_set(); set() returns None, Python
not None is True, so for every prior value of the stop flag the check
sets the flag and decides to iterate: the loop never observes the stop
signal and never reaches the close() after the loop. -/
theorem c4_loop_never_observes_stop :
    ∀ stopFlag : Bool, runLoopCheck stopFlag = (true, .iterate) :=
  fun _ => rfl

/-! ## findNode and updateNodeList lemmas -/

theorem findNode_mem {nid : Int} {ns : List Node} {node : Node}
    (h : findNode nid ns = some node) : node ∈ ns ∧ node.id = nid := by
  induction ns with
  | nil => simp [findNode] at h
  | cons n rest ih =>
    rw [findNode] at h
    by_cases hn : n.id = nid
    · rw [if_pos hn] at h
      injection h with h
      subst h
      exact ⟨by simp, hn⟩
    · rw [if_neg hn] at h
      obtain ⟨hm, hid⟩ := ih h
      exact ⟨by simp [hm], hid⟩

theorem findNode_eq_none {nid : Int} {ns : List Node}
    (h : ∀ n ∈ ns, n.id ≠ nid) : findNode nid ns = none := by
  induction ns with
  | nil => rfl
  | cons n rest ih =>
    rw [findNode, if_neg (h n (by simp))]
    exact ih (fun m hm => h m (by simp [hm]))

theorem updateNodeList_of_findNode {nid : Int} (f : Node → Node)
    {ns : List Node} {node : Node} (h : findNode nid ns = some node) :
    ∃ ns', updateNodeList nid f ns = some (ns', f node) ∧ f node ∈ ns' := by
  induction ns with
  | nil => simp [findNode] at h
  | cons n rest ih =>
    rw [findNode] at h
    by_cases hn : n.id = nid
    · rw [if_pos hn] at h
      injection h with h
      subst h
      exact ⟨f n :: rest, by rw [updateNodeList, if_pos hn], by simp⟩
    · rw [if_neg hn] at h
      obtain ⟨ns', hu, hm⟩ := ih h
      refine ⟨n :: ns', ?_, by simp [hm]⟩
      rw [updateNodeList, if_neg hn, hu]

theorem presentSensor_mem (msg : MyMessage) (l : List Sensor) :
    ∃ s ∈ presentSensor msg l, s.id = msg.child_id ∧
      s.version = some msg.payload ∧ s.type = some msg.sub_type := by
  induction l with
  | nil =>
    exact ⟨{ id := msg.child_id, version := some msg.payload,
             type := some msg.sub_type }, by simp [presentSensor],
           rfl, rfl, rfl⟩
  | cons s rest ih =>
    by_cases hs : s.id = msg.child_id
    · refine ⟨{ s with version := some msg.payload,
                       type := some msg.sub_type }, ?_, hs, rfl, rfl⟩
      simp [presentSensor, hs]
    · obtain ⟨t, ht, h1, h2, h3⟩ := ih
      exact ⟨t, by simp [presentSensor, hs, ht], h1, h2, h3⟩

/-! ## Claim C2: _get_node is a lookup, not get-or-create -/

/-- Claim C2 counterexample: on a registry with an empty node list,
_get_node(7) returns None; no node with id 7 is created or appended
anywhere (the function does not touch the registry), refuting the
get-or-create reading. -/
theorem c2_counterexample : _get_node ⟨some []⟩ 7 = .ok none := rfl

/-- Claim C2 amended: _get_node returns the first existing node with the
requested id when one is present, and returns None when no node matches;
it never creates or appends a node (it does not modify the registry at
all), so two calls with the same id on an unchanged registry return the
same record and the registry keeps exactly the nodes it had. -/
theorem c2_get_node_amended (ns : List Node) (nid : Int) :
    (∀ node, findNode nid ns = some node →
      _get_node ⟨some ns⟩ nid = .ok (some node) ∧
        node ∈ ns ∧ node.id = nid) ∧
    ((∀ n ∈ ns, n.id ≠ nid) → _get_node ⟨some ns⟩ nid = .ok none) := by
  constructor
  · intro node h
    obtain ⟨hm, hid⟩ := findNode_mem h
    refine ⟨?_, hm, hid⟩
    show Except.ok (findNode nid ns) = Except.ok (some node)
    rw [h]
  · intro h
    show Except.ok (findNode nid ns) = Except.ok none
    rw [findNode_eq_none h]

def c2node : Node := { id := 7 }

/-- Witness for c2_get_node_amended on a registry holding node 7. -/
theorem c2_get_node_amended_witness :
    _get_node ⟨some [c2node]⟩ 7 = .ok (some c2node) ∧
      c2node ∈ [c2node] ∧ c2node.id = 7 :=
  (c2_get_node_amended [c2node] 7).1 c2node rfl

/-! ## Claim C3: presentation handling -/

/-- Claim C3 counterexample: a presentation message for node 5 when node
5 is not in the registry does not create the node; _get_node returns
None and the subsequent attribute access raises AttributeError, so no
sensor is recorded, nothing is persisted and no discovery notification
is emitted. -/
theorem c3_counterexample :
    handle_presentation ⟨some []⟩ ⟨5, 2, 0, 0, 6, .s ['1', '.', '5']⟩ =
      .error .attributeError := rfl

/-- Claim C3 amended: for a presentation message whose nodeId IS already
in the registry, the handler updates or creates the sensor for childId
on that node (type := subType, version := payload), persists once, and
emits exactly one discovery notification carrying the updated node
record; when the nodeId is unknown the handler raises instead of
creating the node. -/
theorem c3_presentation_amended (cfg : Config) (ns : List Node)
    (msg : MyMessage) (node : Node) (h1 : cfg.nodes = some ns)
    (h2 : findNode msg.node_id ns = some node) :
    ∃ ns',
      handle_presentation cfg msg =
        .ok (⟨some ns'⟩, { writes := [],
                           discoveries := [presentUpd msg node],
                           saves := 1 }) ∧
      presentUpd msg node ∈ ns' ∧
      (presentUpd msg node).id = msg.node_id ∧
      ∃ s ∈ (presentUpd msg node).sensors.getD [],
        s.id = msg.child_id ∧ s.version = some msg.payload ∧
          s.type = some msg.sub_type := by
  obtain ⟨ns', hu, hm⟩ := updateNodeList_of_findNode (presentUpd msg) h2
  refine ⟨ns', ?_, hm, (findNode_mem h2).2, ?_⟩
  · simp only [handle_presentation, h1, hu]
  · exact presentSensor_mem msg (node.sensors.getD [])

def c3node : Node := { id := 5 }
def c3msg : MyMessage := ⟨5, 2, 0, 0, 6, .s ['1', '.', '5']⟩

/-- Witness for c3_presentation_amended with node 5 registered. -/
theorem c3_presentation_amended_witness :
    ∃ ns',
      handle_presentation ⟨some [c3node]⟩ c3msg =
        .ok (⟨some ns'⟩, { writes := [],
                           discoveries := [presentUpd c3msg c3node],
                           saves := 1 }) ∧
      presentUpd c3msg c3node ∈ ns' ∧
      (presentUpd c3msg c3node).id = c3msg.node_id ∧
      ∃ s ∈ (presentUpd c3msg c3node).sensors.getD [],
        s.id = c3msg.child_id ∧ s.version = some c3msg.payload ∧
          s.type = some c3msg.sub_type :=
  c3_presentation_amended ⟨some [c3node]⟩ [c3node] c3msg c3node rfl rfl

/-! ## Claim C6: sketch name and version handling -/

/-- Claim C6 counterexample: a SKETCH_NAME message for a registered node
updates the node in memory but performs zero save_config calls (the
registry is not persisted), and for an unregistered node the handler
raises TypeError instead of creating the node. -/
theorem c6_counterexample :
    handle_internal true ⟨some [{ id := 1 }]⟩ ⟨1, 0, 3, 0, 11, .s ['A']⟩ =
      .ok (⟨some [{ id := 1, name := some (.s ['A']) }]⟩,
           { writes := [], discoveries := [], saves := 0 }) ∧
    handle_internal true ⟨some []⟩ ⟨2, 0, 3, 0, 11, .s ['A']⟩ =
      .error .typeError :=
  ⟨rfl, rfl⟩

/-- Claim C6 amended: for an Internal message with sub-type SKETCH_NAME
or SKETCH_VERSION whose nodeId is already in the registry, the handler
updates the corresponding field on that node in memory only — it does
not persist the registry (save_config is not called) — and when the
nodeId is unknown it raises instead of creating the node. -/
theorem c6_sketch_amended (metric : Bool) (cfg : Config) (ns : List Node)
    (msg : MyMessage) (node : Node) (h1 : cfg.nodes = some ns)
    (h2 : findNode msg.node_id ns = some node) :
    (msg.sub_type = I_SKETCH_NAME →
      ∃ ns', handle_internal metric cfg msg =
          .ok (⟨some ns'⟩, { writes := [], discoveries := [], saves := 0 }) ∧
        { node with name := some msg.payload } ∈ ns') ∧
    (msg.sub_type = I_SKETCH_VERSION →
      ∃ ns', handle_internal metric cfg msg =
          .ok (⟨some ns'⟩, { writes := [], discoveries := [], saves := 0 }) ∧
        { node with version := some msg.payload } ∈ ns') := by
  constructor
  · intro hst
    obtain ⟨ns', hu, hm⟩ :=
      updateNodeList_of_findNode (fun n => { n with name := some msg.payload }) h2
    refine ⟨ns', ?_, hm⟩
    norm_num [handle_internal, hst, h1, hu, I_ID_REQUEST, I_CONFIG,
      I_LOG_MESSAGE, I_SKETCH_NAME]
  · intro hst
    obtain ⟨ns', hu, hm⟩ :=
      updateNodeList_of_findNode (fun n => { n with version := some msg.payload }) h2
    refine ⟨ns', ?_, hm⟩
    norm_num [handle_internal, hst, h1, hu, I_ID_REQUEST, I_CONFIG,
      I_LOG_MESSAGE, I_SKETCH_NAME, I_SKETCH_VERSION]

def c6cfg : Config := ⟨some [{ id := 1 }]⟩
def c6msg : MyMessage := ⟨1, 0, 3, 0, 11, .s ['A']⟩

/-- Witness for c6_sketch_amended on a registry holding node 1. -/
theorem c6_sketch_amended_witness :
    ∃ ns', handle_internal true c6cfg c6msg =
        .ok (⟨some ns'⟩, { writes := [], discoveries := [], saves := 0 }) ∧
      { id := 1, name := some (.s ['A']) : Node } ∈ ns' :=
  (c6_sketch_amended true c6cfg [{ id := 1 }] c6msg { id := 1 } rfl rfl).1 rfl

/-! ## Claim C7: id-request handling -/

/-- Claim C7 confirmed: for every Internal message with sub-type
ID_REQUEST the controller allocates next_sensor_id of the current
registry, appends a node with exactly that id, saves once, and writes
exactly one reply that echoes nodeId/childId/messageClass, has ack 0,
sub-type ID_RESPONSE and the new id as payload. -/
theorem c7_id_request_reply (metric : Bool) (cfg : Config)
    (msg : MyMessage) (h : msg.sub_type = I_ID_REQUEST) :
    handle_internal metric cfg msg =
      .ok (⟨some (cfg.nodes.getD [] ++ [{ id := next_sensor_id cfg }])⟩,
           { writes := [{ msg with ack := 0, sub_type := I_ID_RESPONSE,
                                   payload := .i (next_sensor_id cfg) }],
             discoveries := [], saves := 1 }) := by
  have hnext : next_sensor_id (ensureNodes cfg) = next_sensor_id cfg := by
    rcases hc : cfg.nodes with _ | (_ | ⟨n, l⟩) <;>
      simp [ensureNodes, next_sensor_id, hc]
  have hgetD : (ensureNodes cfg).nodes.getD [] = cfg.nodes.getD [] := by
    rcases hc : cfg.nodes with _ | (_ | ⟨n, l⟩) <;>
      simp [ensureNodes, hc]
  simp only [handle_internal, h, if_pos rfl]
  rw [handle_id_request]
  rw [hnext, hgetD]
  simp

def c7msg : MyMessage := ⟨42, 255, 3, 0, 3, .s []⟩

/-- Witness for c7_id_request_reply on an empty registry: the new node
gets id 1 and the reply carries payload 1. -/
theorem c7_id_request_reply_witness :
    handle_internal true ⟨none⟩ c7msg =
      .ok (⟨some [{ id := 1 }]⟩,
           { writes := [{ c7msg with ack := 0, sub_type := I_ID_RESPONSE,
                                     payload := .i 1 }],
             discoveries := [], saves := 1 }) :=
  c7_id_request_reply true ⟨none⟩ c7msg rfl

/-! ## Claim C9: config request handling -/

/-- Claim C9 confirmed: for every Internal message with sub-type CONFIG
the controller writes exactly one reply whose payload is "M" when the
host unit system is Celsius and "I" otherwise, with every other field
copied from the request, performs no save and no discovery, and leaves
the registry untouched. -/
theorem c9_config_reply (metric : Bool) (cfg : Config) (msg : MyMessage)
    (h : msg.sub_type = I_CONFIG) :
    handle_internal metric cfg msg =
      .ok (cfg, { writes := [{ msg with
                    payload := .s (if metric then ['M'] else ['I']) }],
                  discoveries := [], saves := 0 }) := by
  norm_num [handle_internal, h, I_CONFIG, I_ID_REQUEST]

def c9msg : MyMessage := ⟨3, 0, 3, 0, 6, .s []⟩

/-- Witness for c9_config_reply with a metric host: the reply to node 3
carries payload "M" and the registry is unchanged. -/
theorem c9_config_reply_witness :
    handle_internal true ⟨some []⟩ c9msg =
      .ok (⟨some []⟩, { writes := [{ c9msg with payload := .s ['M'] }],
                        discoveries := [], saves := 0 }) :=
  c9_config_reply true ⟨some []⟩ c9msg rfl

/-! ## maxNodeByKey and next_sensor_id lemmas -/

theorem maxNodeByKey_cons (n x : Node) (xs : List Node) :
    maxNodeByKey n (x :: xs) =
      maxNodeByKey (if n.id < x.id then x else n) xs := rfl

theorem maxNodeByKey_id_ge_init (n : Node) (ns : List Node) :
    n.id ≤ (maxNodeByKey n ns).id := by
  induction ns generalizing n with
  | nil => exact le_refl _
  | cons x xs ih =>
    rw [maxNodeByKey_cons]
    by_cases h : n.id < x.id
    · rw [if_pos h]
      exact le_trans (le_of_lt h) (ih x)
    · rw [if_neg h]
      exact ih n

theorem maxNodeByKey_id_ge_mem (n : Node) (ns : List Node) :
    ∀ x ∈ ns, x.id ≤ (maxNodeByKey n ns).id := by
  induction ns generalizing n with
  | nil => intro x hx; simp at hx
  | cons y ys ih =>
    intro x hx
    rw [maxNodeByKey_cons]
    rcases List.mem_cons.mp hx with rfl | hx
    · by_cases h : n.id < x.id
      · rw [if_pos h]
        exact maxNodeByKey_id_ge_init x ys
      · rw [if_neg h]
        exact le_trans (le_of_not_lt h) (maxNodeByKey_id_ge_init n ys)
    · exact ih _ x hx

theorem maxNodeByKey_mem (n : Node) (ns : List Node) :
    maxNodeByKey n ns = n ∨ maxNodeByKey n ns ∈ ns := by
  induction ns generalizing n with
  | nil => exact Or.inl rfl
  | cons y ys ih =>
    rw [maxNodeByKey_cons]
    by_cases h : n.id < y.id
    · rw [if_pos h]
      rcases ih y with h1 | h1
      · exact Or.inr (by simp [h1])
      · exact Or.inr (by simp [h1])
    · rw [if_neg h]
      rcases ih n with h1 | h1
      · exact Or.inl h1
      · exact Or.inr (by simp [h1])

/-- Every registered node id is strictly below the next allocated id. -/
theorem lt_next_sensor_id (cfg : Config) :
    ∀ n ∈ cfg.nodes.getD [], n.id < next_sensor_id cfg := by
  intro n hn
  rcases hc : cfg.nodes with _ | (_ | ⟨m, l⟩) <;> rw [hc] at hn
  · simp at hn
  · simp at hn
  · simp only [Option.getD_some] at hn
    simp only [next_sensor_id, hc]
    rcases List.mem_cons.mp hn with rfl | hn
    · have := maxNodeByKey_id_ge_init n l
      omega
    · have := maxNodeByKey_id_ge_mem m l n hn
      omega

theorem ensureNodes_next (cfg : Config) :
    next_sensor_id (ensureNodes cfg) = next_sensor_id cfg := by
  rcases hc : cfg.nodes with _ | (_ | ⟨n, l⟩) <;>
    simp [ensureNodes, next_sensor_id, hc]

theorem ensureNodes_getD (cfg : Config) :
    (ensureNodes cfg).nodes.getD [] = cfg.nodes.getD [] := by
  rcases hc : cfg.nodes with _ | (_ | ⟨n, l⟩) <;> simp [ensureNodes, hc]

theorem handle_id_request_fst (cfg : Config) (msg : MyMessage) :
    (handle_id_request cfg msg).1 =
      ⟨some (cfg.nodes.getD [] ++ [{ id := next_sensor_id cfg }])⟩ := by
  rw [handle_id_request]
  rw [ensureNodes_next, ensureNodes_getD]

/-! ## Claim C8: id allocation -/

def mkNode (k : Nat) : Node := { id := (k : Int) }

def mkNodes (N : Nat) : List Node := (List.range' 1 N).map mkNode

theorem mkNodes_ids (N : Nat) :
    ∀ n ∈ mkNodes N, 1 ≤ n.id ∧ n.id ≤ (N : Int) := by
  intro n hn
  simp only [mkNodes, List.mem_map] at hn
  obtain ⟨k, hk, rfl⟩ := hn
  have hb := List.mem_range'_1.mp hk
  constructor <;> simp [mkNode] <;> omega

theorem next_mkNodes (N : Nat) :
    next_sensor_id ⟨some (mkNodes N)⟩ = (N : Int) + 1 := by
  cases hN : mkNodes N with
  | nil =>
    have hlen : (mkNodes N).length = N := by simp [mkNodes]
    rw [hN] at hlen
    simp at hlen
    subst hlen
    simp [next_sensor_id]
  | cons h t =>
    simp only [next_sensor_id]
    have hNpos : 1 ≤ N := by
      have hlen : (mkNodes N).length = N := by simp [mkNodes]
      rw [hN] at hlen
      simp at hlen
      omega
    have htop : mkNode N ∈ mkNodes N := by
      simp only [mkNodes, List.mem_map]
      exact ⟨N, List.mem_range'_1.mpr ⟨hNpos, by omega⟩, rfl⟩
    have hle : (maxNodeByKey h t).id ≤ (N : Int) := by
      rcases maxNodeByKey_mem h t with h1 | h1
      · rw [h1]
        exact (mkNodes_ids N h (by rw [hN]; simp)).2
      · exact (mkNodes_ids N _ (by rw [hN]; simp [h1])).2
    have hge : (N : Int) ≤ (maxNodeByKey h t).id := by
      rw [hN] at htop
      rcases List.mem_cons.mp htop with h1 | h1
      · have h2 := maxNodeByKey_id_ge_init h t
        have h3 : h.id = (N : Int) := by
          rw [← h1]
          rfl
        omega
      · have h2 := maxNodeByKey_id_ge_mem h t _ h1
        simpa [mkNode] using h2
    omega

theorem allocN_getD (N : Nat) :
    (allocN N).nodes.getD [] = mkNodes N := by
  induction N with
  | zero => rfl
  | succ M ih =>
    show (allocStep (allocN M)).nodes.getD [] = mkNodes (M + 1)
    rw [allocStep, handle_id_request_fst]
    have hnext : next_sensor_id (allocN M) = (M : Int) + 1 := by
      have h1 : next_sensor_id (allocN M) =
          next_sensor_id ⟨some ((allocN M).nodes.getD [])⟩ := by
        rcases hc : (allocN M).nodes with _ | (_ | ⟨n, l⟩) <;>
          simp [next_sensor_id, hc]
      rw [h1, ih, next_mkNodes]
    rw [ih, hnext]
    simp only [Option.getD_some]
    have hconcat : List.range' 1 (M + 1) = List.range' 1 M ++ [M + 1] := by
      rw [List.range'_concat 1 M]
      have h1 : 1 + 1 * M = M + 1 := by omega
      rw [h1]
    have hsplit : mkNodes (M + 1) = mkNodes M ++ [mkNode (M + 1)] := by
      simp only [mkNodes, hconcat, List.map_append, List.map_cons,
        List.map_nil]
    rw [hsplit]
    have hnode : ({ id := (M : Int) + 1 } : Node) = mkNode (M + 1) := by
      simp only [mkNode, Node.mk.injEq, and_true]
      push_cast
      ring
    rw [hnode]

/-- Claim C8 confirmed: next_sensor_id is 1 on an empty registry (nodes
key absent or empty list), is max id + 1 otherwise (ids {1,3,5} give 6),
and allocating N ids sequentially through handle_id_request starting
from an empty registry yields exactly the ids 1..N with no
duplicates. -/
theorem c8_next_sensor_id_spec :
    next_sensor_id ⟨none⟩ = 1 ∧
    next_sensor_id ⟨some []⟩ = 1 ∧
    next_sensor_id ⟨some [{ id := 1 }, { id := 3 }, { id := 5 }]⟩ = 6 ∧
    ∀ N : Nat, ((allocN N).nodes.getD []).map Node.id =
        (List.range' 1 N).map (fun k : Nat => (k : Int)) ∧
      (((allocN N).nodes.getD []).map Node.id).Nodup := by
  have hmap : ∀ N : Nat, ((allocN N).nodes.getD []).map Node.id =
      (List.range' 1 N).map (fun k : Nat => (k : Int)) := by
    intro N
    rw [allocN_getD, mkNodes, List.map_map]
    rfl
  refine ⟨rfl, rfl, rfl, fun N => ⟨hmap N, ?_⟩⟩
  rw [hmap N]
  exact List.Nodup.map Nat.cast_injective (List.nodup_range' 1 N)

/-! ## Claim C10: registry invariants -/

theorem updateNodeList_parts {nid : Int} (f : Node → Node) :
    ∀ {ns ns' : List Node} {node : Node},
      updateNodeList nid f ns = some (ns', node) →
      ∃ pre n0 post, ns = pre ++ n0 :: post ∧ ns' = pre ++ f n0 :: post ∧
        node = f n0 := by
  intro ns
  induction ns with
  | nil =>
    intro ns' node h
    simp [updateNodeList] at h
  | cons n rest ih =>
    intro ns' node h
    rw [updateNodeList] at h
    by_cases hn : n.id = nid
    · rw [if_pos hn] at h
      injection h with h
      injection h with h1 h2
      subst h1
      subst h2
      exact ⟨[], n, rest, by simp, by simp, rfl⟩
    · rw [if_neg hn] at h
      cases hu : updateNodeList nid f rest with
      | none =>
        rw [hu] at h
        simp at h
      | some p =>
        obtain ⟨rest', node'⟩ := p
        rw [hu] at h
        injection h with h
        injection h with h1 h2
        subst h1
        subst h2
        obtain ⟨pre, n0, post, hns, hns', hnode⟩ := ih hu
        exact ⟨n :: pre, n0, post, by simp [hns], by simp [hns'], hnode⟩

/-- Invariant preservation through an in-place node update that keeps
the node id and keeps sensor-id uniqueness. -/
theorem regInv_preserved_update {nid : Int} {f : Node → Node}
    (hf_id : ∀ n, (f n).id = n.id)
    (hf_sens : ∀ n, (((n.sensors.getD []).map Sensor.id)).Nodup →
      ((((f n).sensors.getD []).map Sensor.id)).Nodup)
    {ns ns' : List Node} {node : Node}
    (hu : updateNodeList nid f ns = some (ns', node))
    (h1 : (ns.map Node.id).Nodup)
    (h2 : ∀ n ∈ ns, (((n.sensors.getD []).map Sensor.id)).Nodup) :
    (ns'.map Node.id).Nodup ∧
      ∀ n ∈ ns', (((n.sensors.getD []).map Sensor.id)).Nodup := by
  obtain ⟨pre, n0, post, hns, hns', hnode⟩ := updateNodeList_parts f hu
  subst hns
  subst hns'
  constructor
  · have hsame : (pre ++ f n0 :: post).map Node.id =
        (pre ++ n0 :: post).map Node.id := by
      simp [hf_id]
    rw [hsame]
    exact h1
  · intro n hn
    rcases List.mem_append.mp hn with hpre | hrest
    · exact h2 n (by simp [hpre])
    · rcases List.mem_cons.mp hrest with rfl | hpost
      · exact hf_sens n0 (h2 n0 (by simp))
      · exact h2 n (by simp [hpost])

theorem presentSensor_ids_mem_of_ne (msg : MyMessage) {x : Int}
    (hx : x ≠ msg.child_id) :
    ∀ l : List Sensor, (x ∈ (presentSensor msg l).map Sensor.id ↔
      x ∈ l.map Sensor.id) := by
  intro l
  induction l with
  | nil => simp [presentSensor, hx]
  | cons s rest ih =>
    by_cases hs : s.id = msg.child_id
    · simp [presentSensor, hs]
    · simp [presentSensor, hs, ih]

theorem presentSensor_ids_nodup (msg : MyMessage) :
    ∀ l : List Sensor, (l.map Sensor.id).Nodup →
      ((presentSensor msg l).map Sensor.id).Nodup := by
  intro l
  induction l with
  | nil =>
    intro _
    simp [presentSensor]
  | cons s rest ih =>
    intro h
    simp only [List.map_cons, List.nodup_cons] at h
    obtain ⟨hs_mem, hrest⟩ := h
    by_cases hs : s.id = msg.child_id
    · simp only [presentSensor]
      rw [if_pos hs]
      simp only [List.map_cons, List.nodup_cons]
      exact ⟨hs_mem, hrest⟩
    · simp only [presentSensor]
      rw [if_neg hs]
      simp only [List.map_cons, List.nodup_cons]
      constructor
      · intro hmem
        exact hs_mem ((presentSensor_ids_mem_of_ne msg hs rest).mp hmem)
      · exact ih hrest

theorem regInv_elim {cfg : Config} (h : RegInv cfg) {ns : List Node}
    (hc : cfg.nodes = some ns) :
    (ns.map Node.id).Nodup ∧
      ∀ n ∈ ns, (((n.sensors.getD []).map Sensor.id)).Nodup := by
  constructor
  · have h1 := h.1
    rw [hc] at h1
    simpa using h1
  · intro n hn
    have h2 := h.2
    rw [hc] at h2
    exact h2 n (by simpa using hn)

/-- Claim C10 confirmed: from any registry satisfying the invariant
(unique node ids, unique sensor ids within each node), every successful
handle_internal or handle_presentation call yields a registry satisfying
it again, and an ID_REQUEST appends exactly one node whose id is
next_sensor_id of the prior registry, strictly above every existing
id. -/
theorem c10_registry_invariants (metric : Bool) (cfg : Config)
    (msg : MyMessage) (hInv : RegInv cfg) :
    (∀ cfg' fx, handle_internal metric cfg msg = .ok (cfg', fx) →
      RegInv cfg') ∧
    (∀ cfg' fx, handle_presentation cfg msg = .ok (cfg', fx) →
      RegInv cfg') ∧
    (msg.sub_type = I_ID_REQUEST →
      ∀ cfg' fx, handle_internal metric cfg msg = .ok (cfg', fx) →
        cfg'.nodes = some (cfg.nodes.getD [] ++
          [{ id := next_sensor_id cfg }]) ∧
        ∀ n ∈ cfg.nodes.getD [], n.id < next_sensor_id cfg) := by
  have hIdReq : ∀ cfg' fx,
      Except.ok (handle_id_request cfg msg) =
        (Except.ok (cfg', fx) : Except PyError (Config × CtrlEffects)) →
      RegInv cfg' := by
    intro cfg' fx heq
    injection heq with heq
    have h1 := congrArg Prod.fst heq
    rw [handle_id_request_fst] at h1
    subst h1
    refine ⟨?_, ?_⟩
    · show ((cfg.nodes.getD [] ++
        [({ id := next_sensor_id cfg } : Node)]).map Node.id).Nodup
      rw [List.map_append, List.nodup_append]
      refine ⟨hInv.1, by simp, ?_⟩
      intro a ha hb
      simp at hb
      obtain ⟨n, hn, rfl⟩ := List.mem_map.mp ha
      have hlt := lt_next_sensor_id cfg n hn
      omega
    · intro n hn
      rcases List.mem_append.mp hn with h | h
      · exact hInv.2 n h
      · simp only [List.mem_singleton] at h
        subst h
        simp
  have hSame : ∀ (cfg' : Config) (fx fx0 : CtrlEffects),
      Except.ok (cfg, fx0) =
        (Except.ok (cfg', fx) : Except PyError (Config × CtrlEffects)) →
      RegInv cfg' := by
    intro cfg' fx fx0 heq
    injection heq with heq
    injection heq with hcfg hfx
    subst hcfg
    exact hInv
  have hUpd : ∀ (f : Node → Node), (∀ n, (f n).id = n.id) →
      (∀ n, (((n.sensors.getD []).map Sensor.id)).Nodup →
        ((((f n).sensors.getD []).map Sensor.id)).Nodup) →
      ∀ {ns ns' : List Node} {n0 : Node}, cfg.nodes = some ns →
        updateNodeList msg.node_id f ns = some (ns', n0) →
        RegInv (⟨some ns'⟩ : Config) := by
    intro f hf_id hf_sens ns ns' n0 hc hu
    obtain ⟨hA, hB⟩ := regInv_elim hInv hc
    obtain ⟨hA2, hB2⟩ := regInv_preserved_update (f := f)
      hf_id hf_sens hu hA hB
    exact ⟨hA2, hB2⟩
  refine ⟨?_, ?_, ?_⟩
  · intro cfg' fx heq
    by_cases h3 : msg.sub_type = I_ID_REQUEST
    · simp only [handle_internal, if_pos h3] at heq
      exact hIdReq cfg' fx heq
    · by_cases h6 : msg.sub_type = I_CONFIG
      · simp only [handle_internal, if_neg h3, if_pos h6] at heq
        exact hSame cfg' fx _ heq
      · by_cases h9 : msg.sub_type = I_LOG_MESSAGE
        · simp only [handle_internal, if_neg h3, if_neg h6,
            if_pos h9] at heq
          exact hSame cfg' fx _ heq
        · by_cases h11 : msg.sub_type = I_SKETCH_NAME
          · simp only [handle_internal, if_neg h3, if_neg h6, if_neg h9,
              if_pos h11] at heq
            cases hc : cfg.nodes with
            | none =>
              rw [hc] at heq
              simp at heq
            | some ns =>
              rw [hc] at heq
              cases hu : updateNodeList msg.node_id
                  (fun n => { n with name := some msg.payload }) ns with
              | none => simp [hu] at heq
              | some p =>
                obtain ⟨ns2, n0⟩ := p
                simp only [hu] at heq
                injection heq with heq
                injection heq with hcfg hfx
                subst hcfg
                exact hUpd (fun n => { n with name := some msg.payload })
                  (fun n => rfl) (fun n h => h) hc hu
          · by_cases h12 : msg.sub_type = I_SKETCH_VERSION
            · simp only [handle_internal, if_neg h3, if_neg h6,
                if_neg h9, if_neg h11, if_pos h12] at heq
              cases hc : cfg.nodes with
              | none =>
                rw [hc] at heq
                simp at heq
              | some ns =>
                rw [hc] at heq
                cases hu : updateNodeList msg.node_id
                    (fun n => { n with version := some msg.payload })
                    ns with
                | none => simp [hu] at heq
                | some p =>
                  obtain ⟨ns2, n0⟩ := p
                  simp only [hu] at heq
                  injection heq with heq
                  injection heq with hcfg hfx
                  subst hcfg
                  exact hUpd
                    (fun n => { n with version := some msg.payload })
                    (fun n => rfl) (fun n h => h) hc hu
            · by_cases h14 : msg.sub_type = I_GATEWAY_READY
              · simp only [handle_internal, if_neg h3, if_neg h6,
                  if_neg h9, if_neg h11, if_neg h12, if_pos h14] at heq
                exact hSame cfg' fx _ heq
              · simp only [handle_internal, if_neg h3, if_neg h6,
                  if_neg h9, if_neg h11, if_neg h12, if_neg h14] at heq
                exact hSame cfg' fx _ heq
  · intro cfg' fx heq
    unfold handle_presentation at heq
    cases hc : cfg.nodes with
    | none =>
      rw [hc] at heq
      simp at heq
    | some ns =>
      rw [hc] at heq
      cases hu : updateNodeList msg.node_id (presentUpd msg) ns with
      | none => simp [hu] at heq
      | some p =>
        obtain ⟨ns2, n0⟩ := p
        simp only [hu] at heq
        injection heq with heq
        injection heq with hcfg hfx
        subst hcfg
        exact hUpd (presentUpd msg) (fun n => rfl)
          (fun n h => presentSensor_ids_nodup msg (n.sensors.getD []) h)
          hc hu
  · intro hst cfg' fx heq
    simp only [handle_internal, if_pos hst] at heq
    injection heq with heq
    have h1 := congrArg Prod.fst heq
    rw [handle_id_request_fst] at h1
    subst h1
    exact ⟨rfl, lt_next_sensor_id cfg⟩

def c10cfg : Config := ⟨some [{ id := 1, sensors := some [{ id := 0 }] }]⟩
def c10msg : MyMessage := ⟨1, 0, 3, 0, 11, .s ['A']⟩
def c10cfgAfter : Config :=
  ⟨some [{ id := 1, name := some (.s ['A']),
           sensors := some [{ id := 0 }] }]⟩

/-- Witness for c10_registry_invariants: a sketch-name update on a
one-node registry preserves the invariant. -/
theorem c10_registry_invariants_witness :
    RegInv c10cfg ∧ RegInv c10cfgAfter :=
  ⟨by decide, (c10_registry_invariants true c10cfg c10msg (by decide)).1
      c10cfgAfter ⟨[], [], 0⟩ rfl⟩

def c5msg : MyMessage := ⟨1, 2, 0, 0, 6, .s ['1', '.', '5']⟩

/-- Witness for c5_roundtrip_amended: the message with payload "1.5"
survives the encode/decode round trip. -/
theorem c5_roundtrip_amended_witness :
    parseLine (encodeMsg c5msg) = .ok c5msg :=
  c5_roundtrip_amended 1 2 0 0 6 ['1', '.', '5'] (by decide) (by decide)
